import Mathlib

/-!
Shallow embedding of the chord-diagram app's core logic
(`src/components/ChordSearch.tsx`, both component variants, and
`src/components/Piano.tsx`): note derivation, the playback sequencer,
and the progression store, together with proofs of the specified
properties.

Pitches are modelled as a pitch-class string paired with an octave
number (the source builds the string `pc + octave`; `Note.pitchClass`
recovers the pitch-class part, modelled here by the `pc` projection).
The external music-theory resolver (`Chord.get`) is modelled as a
parameter `resolve : String → ChordInfo`.  Randomness (`Math.random`)
is modelled by passing the sampled value in `[0,1)` explicitly to each
invocation that draws one.  Timer-driven progression playback is
modelled as a fuel-indexed step machine producing a list of timed
trigger instructions (times in milliseconds from playback start).
-/

namespace ChordApp

/-- A pitch: pitch class (e.g. "C", "F#") plus octave number; the source
represents this as the concatenated string, e.g. "C4". -/
structure Pitch where
  pc : String
  oct : Nat
deriving DecidableEq, Repr

/-- Result of the external music-theory resolver `Chord.get`: the tonic
(root pitch class, absent for unknown symbols) and the constituent
pitch classes (empty for unknown symbols). -/
structure ChordInfo where
  tonic : Option String
  notes : List String
deriving DecidableEq, Repr

/-- `playStyle` state: `"chord"` (simultaneous) or `"arpeggio"`. -/
inductive PlayStyle
  | chord
  | arpeggio
deriving DecidableEq, Repr

/-- `duration` state: `"short" | "medium" | "long"`. -/
inductive Duration
  | short
  | medium
  | long
deriving DecidableEq, Repr

/-- `velocity` state: `"low" | "medium" | "high"`. -/
inductive Velocity
  | low
  | medium
  | high
deriving DecidableEq, Repr

/-- `const velocityMap = { low: -24, medium: -12, high: 0 }` (dB). -/
def velocityMap : Velocity → ℚ
  | .low => -24
  | .medium => -12
  | .high => 0

/-- `const timeMap = { short: "4n", medium: "2n", long: "1n" }`. -/
def timeMap : Duration → String
  | .short => "4n"
  | .medium => "2n"
  | .long => "1n"

/-- One trigger instruction issued to the Audio Engine: the pitches it
carries, the note-length token, and the onset offset in seconds
(`triggerAttackRelease(pitches, noteLength, "+offset")`; offset 0 when
the third argument is omitted). -/
structure Trigger where
  pitches : List Pitch
  noteLength : String
  offset : ℚ
deriving DecidableEq, Repr

/-- Component state of the first `ChordSearch` variant (the relevant
`useState` fields). -/
structure State where
  selectedChord : Option String
  notes : List Pitch
  bassNote : Option Pitch
  isMuted : Bool
  playStyle : PlayStyle
  duration : Duration
  velocity : Velocity
  selectedMelody : List Pitch
  harmonicsMode : Bool
  loop : Bool
  eightBarLoop : Bool
  progression : List String
deriving DecidableEq, Repr

/-- `getHumanizedVelocity`: `velocityMap[velocity] + (Math.random() - 0.5) * 4`;
`rand` is the value returned by `Math.random()` at this call. -/
def getHumanizedVelocity (v : Velocity) (rand : ℚ) : ℚ :=
  velocityMap v + (rand - 1/2) * 4

/-- Note derivation inside `handleSelect` (first variant):
`chordInfo.notes.map(n => Note.pitchClass(n) + baseOctave)` with
`baseOctave = 4`, then, if harmonics mode is on, re-map index `i` to
octave `4 + Math.floor(i / 2)`. -/
def handleSelectNotes (chordInfo : ChordInfo) (harmonicsMode : Bool) : List Pitch :=
  let baseOctave := 4
  let fullNotes := chordInfo.notes.map (fun n => Pitch.mk n baseOctave)
  if harmonicsMode then
    fullNotes.enum.map (fun p => Pitch.mk p.2.pc (4 + p.1 / 2))
  else
    fullNotes

/-- The playback set assembled inside `playChord`:
`[...(bassNote ? [bassNote] : []), ...customNotes, ...selectedMelody]`. -/
def buildAllNotes (bassNote : Option Pitch) (customNotes : List Pitch)
    (selectedMelody : List Pitch) : List Pitch :=
  bassNote.toList ++ customNotes ++ selectedMelody

/-- `playChord(customNotes = notes)`: `none` models the early return
(muted or empty note list — no synth is created, no trigger issued);
otherwise the synth volume (set once per call from a fresh
`Math.random()` sample) and the trigger instructions issued. -/
def playChord (s : State) (customNotes : List Pitch) (rand : ℚ) :
    Option (ℚ × List Trigger) :=
  if s.isMuted = true ∨ customNotes.isEmpty = true then
    none
  else
    let allNotes := buildAllNotes s.bassNote customNotes s.selectedMelody
    let vol := getHumanizedVelocity s.velocity rand
    match s.playStyle with
    | .chord => some (vol, [Trigger.mk allNotes (timeMap s.duration) 0])
    | .arpeggio =>
        some (vol, allNotes.enum.map
          (fun p => Trigger.mk [p.2] (timeMap s.duration) ((p.1 : ℚ) * (3/10))))

/-- `handleSelect(chordName)` (first variant): resolves the chord, derives
the note list, updates the selection state (bass from the tonic at
octave 2, melody cleared), and immediately calls `playChord(fullNotes)`.
The `playChord` call closes over the *pre-update* render state (React
state setters do not mutate the closure), so it is evaluated on `s`,
with the freshly derived notes passed explicitly. -/
def handleSelect (resolve : String → ChordInfo) (s : State) (chordName : String)
    (rand : ℚ) : State × Option (ℚ × List Trigger) :=
  let chordInfo := resolve chordName
  let fullNotes := handleSelectNotes chordInfo s.harmonicsMode
  let root := chordInfo.tonic
  let s' := { s with
    selectedChord := some chordName
    bassNote := root.map (fun r => Pitch.mk r 2)
    notes := fullNotes
    selectedMelody := [] }
  (s', playChord s fullNotes rand)

/-- `playMelodyPreview()`: early return when the melody is empty or muted;
otherwise one trigger per melody note, note length `"8n"`, offsets
`i * 0.3`. -/
def playMelodyPreview (s : State) : List Trigger :=
  if s.selectedMelody.isEmpty = true ∨ s.isMuted = true then
    []
  else
    s.selectedMelody.enum.map (fun p => Trigger.mk [p.2] "8n" ((p.1 : ℚ) * (3/10)))

/-- `addToProgression()`: `if (selectedChord) setProgression(prev => [...prev, selectedChord])`. -/
def addToProgression (s : State) : State :=
  match s.selectedChord with
  | some c => { s with progression := s.progression ++ [c] }
  | none => s

/-- The `ChordProgressionSection` `onSelect` callback (first variant):
replaces the progression with the template's chords and clears the
chord selection, derived notes, bass and melody. -/
def chordProgressionOnSelect (s : State) (chords : List String) : State :=
  { s with
    progression := chords
    selectedChord := none
    notes := []
    bassNote := none
    selectedMelody := [] }

/-- A trigger instruction together with the time (ms from playback
start) at which the timer chain issues it. -/
structure TimedTrigger where
  time : Nat
  trig : Trigger
deriving DecidableEq, Repr

/-- The note list built for one progression step:
`Chord.get(progression[i]).notes.map(n => Note.pitchClass(n) + "4")`. -/
def progressionChordNotes (resolve : String → ChordInfo) (sym : String) : List Pitch :=
  (resolve sym).notes.map (fun n => Pitch.mk n 4)

/-- The simultaneous trigger issued for progression step `k`:
`synth.triggerAttackRelease(fullNotes, timeMap[duration])`. -/
def progressionTrigger (resolve : String → ChordInfo) (prog : List String)
    (dur : Duration) (k : Nat) : Trigger :=
  Trigger.mk (progressionChordNotes resolve (prog.getD k "")) (timeMap dur) 0

/-- One invocation of `playNext` inside `playProgression`, acting on the
captured index `i` and the current time `t` (ms). `none` models the
plain `return` (chain stops); `some (none, st)` models the eight-bar
wrap (no trigger, `i = 0`, next invocation after 1500 ms);
`some (some e, st)` models a step that triggers the chord at `i` now
and re-arms the 1500 ms timeout. -/
def playNextStep (resolve : String → ChordInfo) (prog : List String)
    (dur : Duration) (eightBar : Bool) :
    Nat × Nat → Option (Option TimedTrigger × (Nat × Nat))
  | (i, t) =>
    if prog.length ≤ i then
      if eightBar = true then some (none, (0, t + 1500)) else none
    else
      some (some (TimedTrigger.mk t (progressionTrigger resolve prog dur i)),
            (i + 1, t + 1500))

/-- The timed triggers produced by running the `playNext` timer chain for
at most `fuel` invocations from machine state `st`. -/
def progressionEvents (resolve : String → ChordInfo) (prog : List String)
    (dur : Duration) (eightBar : Bool) : Nat × Nat → Nat → List TimedTrigger
  | _, 0 => []
  | st, fuel + 1 =>
    match playNextStep resolve prog dur eightBar st with
    | none => []
    | some (none, st') => progressionEvents resolve prog dur eightBar st' fuel
    | some (some e, st') => e :: progressionEvents resolve prog dur eightBar st' fuel

/-- `playProgression()`: early return (`none`) only when the progression
is empty — the muted flag is not consulted. Otherwise the synth volume
is set once from a fresh `Math.random()` sample and the `playNext`
chain runs (observed for `fuel` invocations). -/
def playProgression (resolve : String → ChordInfo) (s : State) (rand : ℚ)
    (fuel : Nat) : Option (ℚ × List TimedTrigger) :=
  if s.progression.isEmpty = true then
    none
  else
    some (getHumanizedVelocity s.velocity rand,
          progressionEvents resolve s.progression s.duration s.eightBarLoop (0, 0) fuel)

/-- One tick of the chord-loop `setInterval(() => playChord(), 2000)`:
tick `j` calls `playChord()` with the default argument `notes` and a
fresh `Math.random()` sample `rands j`. -/
def loopPlayChordTicks (s : State) (rands : Nat → ℚ) (count : Nat) :
    List (Option (ℚ × List Trigger)) :=
  (List.range count).map (fun j => playChord s s.notes (rands j))

/-! Piano component (`src/components/Piano.tsx`). -/

/-- The combined note list of the `Piano` component:
`[...(bassNote ? [bassNote] : []), ...notes, ...melodyNotes]`. -/
def pianoCombined (notes : List Pitch) (bassNote : Option Pitch)
    (melodyNotes : List Pitch) : List Pitch :=
  bassNote.toList ++ notes ++ melodyNotes

/-- The `Piano` playback `useEffect`: early return when muted or the
combined list is empty; otherwise one simultaneous trigger, or in
arpeggio style one trigger per note with offsets `i * 0.25`. -/
def pianoPlaybackEffect (muted : Bool) (style : PlayStyle) (dur : Duration)
    (combined : List Pitch) : List Trigger :=
  if muted = true ∨ combined.isEmpty = true then
    []
  else
    match style with
    | .chord => [Trigger.mk combined (timeMap dur) 0]
    | .arpeggio =>
        combined.enum.map (fun p => Trigger.mk [p.2] (timeMap dur) ((p.1 : ℚ) * (1/4)))

/-- `handleKeyClick(note)` in `Piano`: muted is a silent no-op, otherwise
a single `"8n"` trigger of the clicked key. -/
def handleKeyClick (muted : Bool) (note : Pitch) : List Trigger :=
  if muted = true then [] else [Trigger.mk [note] "8n" 0]

/-! Second `ChordSearch` variant (adds `inversion` and `useRootAsBass`;
its `playChord` / `playProgression` / `addToProgression` bodies are
identical to the first variant's, modelled once above). -/

/-- Component state of the second `ChordSearch` variant. -/
structure State2 where
  selectedChord : Option String
  notes : List Pitch
  bassNote : Option Pitch
  useRootAsBass : Bool
  isMuted : Bool
  playStyle : PlayStyle
  duration : Duration
  velocity : Velocity
  selectedMelody : List Pitch
  inversion : Bool
  harmonicsMode : Bool
  loop : Bool
  eightBarLoop : Bool
  progression : List String
deriving DecidableEq, Repr

/-- Note derivation inside the second variant's `handleSelect`: base
octave 4, then `if (inversion) fullNotes = [...fullNotes.slice(1), fullNotes[0]]`
(rotation; modelled for the non-degenerate case via `drop`/`take`),
then the same harmonics re-spread as the first variant. -/
def handleSelect2Notes (chordInfo : ChordInfo) (inversion harmonicsMode : Bool) :
    List Pitch :=
  let fullNotes := chordInfo.notes.map (fun n => Pitch.mk n 4)
  let fullNotes := if inversion = true then fullNotes.drop 1 ++ fullNotes.take 1 else fullNotes
  if harmonicsMode then
    fullNotes.enum.map (fun p => Pitch.mk p.2.pc (4 + p.1 / 2))
  else
    fullNotes

/-- `handleSelect(chordName)` (second variant), state-update part: sets
the selection, bass (tonic at octave 2 only when `useRootAsBass`),
derived notes, and clears the melody. -/
def handleSelect2 (resolve : String → ChordInfo) (s : State2) (chordName : String) :
    State2 :=
  let chordInfo := resolve chordName
  let fullNotes := handleSelect2Notes chordInfo s.inversion s.harmonicsMode
  let root := chordInfo.tonic
  { s with
    selectedChord := some chordName
    bassNote := if s.useRootAsBass = true then root.map (fun r => Pitch.mk r 2) else none
    notes := fullNotes
    selectedMelody := [] }

/-- `progressionTemplates` of the second variant. -/
def progressionTemplates : List (String × List String) :=
  [("I–V–vi–IV", ["Cmaj", "Gmaj", "Am", "Fmaj"]),
   ("ii–V–I", ["Dm7", "G7", "Cmaj7"]),
   ("12-Bar Blues", ["C7", "F7", "C7", "G7"])]

/-- The progression-template `<select>` `onChange` handler (second
variant): `if (selected && progressionTemplates[selected])` replace the
progression and clear chord selection, notes, bass and melody. -/
def templateSelect (s : State2) (selected : String) : State2 :=
  if selected ≠ "" then
    match progressionTemplates.lookup selected with
    | some chords =>
        { s with
          progression := chords
          selectedChord := none
          notes := []
          bassNote := none
          selectedMelody := [] }
    | none => s
  else
    s

/-! Concrete fixtures used by witnesses: a model of the external
resolver `Chord.get` on a few real chord symbols (unknown symbols give
an empty chord with no tonic, as tonal does). -/

/-- Sample resolver fixture. -/
def sampleResolve : String → ChordInfo := fun sym =>
  if sym = "Cmaj7" then ChordInfo.mk (some "C") ["C", "E", "G", "B"]
  else if sym = "G7" then ChordInfo.mk (some "G") ["G", "B", "D", "F"]
  else if sym = "Fmaj7" then ChordInfo.mk (some "F") ["F", "A", "C", "E"]
  else if sym = "Dm7" then ChordInfo.mk (some "D") ["D", "F", "A", "C"]
  else ChordInfo.mk none []

/-- A baseline component state for witnesses. -/
def sampleState : State where
  selectedChord := none
  notes := []
  bassNote := none
  isMuted := false
  playStyle := .chord
  duration := .medium
  velocity := .medium
  selectedMelody := []
  harmonicsMode := false
  loop := false
  eightBarLoop := false
  progression := []

/-- A baseline second-variant state for witnesses. -/
def sampleState2 : State2 where
  selectedChord := none
  notes := []
  bassNote := none
  useRootAsBass := true
  isMuted := false
  playStyle := .chord
  duration := .medium
  velocity := .medium
  selectedMelody := []
  inversion := false
  harmonicsMode := false
  loop := false
  eightBarLoop := false
  progression := []

/-! Helper lemmas about the progression timer chain. -/

/-- With the eight-bar flag off, once the index has reached the end of
the progression the chain produces nothing more, whatever the fuel. -/
theorem progressionEvents_of_le (resolve : String → ChordInfo)
    (prog : List String) (dur : Duration) :
    ∀ (fuel i t : Nat), prog.length ≤ i →
    progressionEvents resolve prog dur false (i, t) fuel = [] := by
  intro fuel
  induction fuel with
  | zero => intro i t h; rfl
  | succ n ih => intro i t h; simp [progressionEvents, playNextStep, h]

/-- Unrolling `j ≤ prog.length - i` emitting steps of the chain: each
emits the chord at its index, 1500 ms after the previous one. -/
theorem progressionEvents_split (resolve : String → ChordInfo)
    (prog : List String) (dur : Duration) (eb : Bool) :
    ∀ (j i t fuel : Nat), i + j ≤ prog.length →
    progressionEvents resolve prog dur eb (i, t) (j + fuel) =
      (List.range j).map (fun k =>
        TimedTrigger.mk (t + 1500 * k) (progressionTrigger resolve prog dur (i + k)))
      ++ progressionEvents resolve prog dur eb (i + j, t + 1500 * j) fuel := by
  intro j
  induction j with
  | zero => intro i t fuel h; simp
  | succ n ih =>
    intro i t fuel h
    have hi : ¬ prog.length ≤ i := by omega
    have hstep : progressionEvents resolve prog dur eb (i, t) (n + 1 + fuel) =
        TimedTrigger.mk t (progressionTrigger resolve prog dur i) ::
          progressionEvents resolve prog dur eb (i + 1, t + 1500) (n + fuel) := by
      have harith : n + 1 + fuel = (n + fuel) + 1 := by omega
      rw [harith]
      simp [progressionEvents, playNextStep, hi]
    have htail : (i + 1 + n, t + 1500 + 1500 * n) = (i + (n + 1), t + 1500 * (n + 1)) := by
      rw [Prod.mk.injEq]
      omega
    have hmap : (List.range n).map (fun k =>
        TimedTrigger.mk (t + 1500 + 1500 * k) (progressionTrigger resolve prog dur (i + 1 + k))) =
        (List.range n).map (fun k =>
          TimedTrigger.mk (t + 1500 * (k + 1)) (progressionTrigger resolve prog dur (i + (k + 1)))) := by
      apply List.map_congr_left
      intro a ha
      have e1 : t + 1500 + 1500 * a = t + 1500 * (a + 1) := by omega
      have e2 : i + 1 + a = i + (a + 1) := by omega
      rw [e1, e2]
    rw [hstep, ih (i + 1) (t + 1500) fuel (by omega), hmap, htail]
    rw [List.range_succ_eq_map, List.map_cons, List.map_map]
    simp [Function.comp, Nat.succ_eq_add_one]

/-- With the eight-bar flag off the chain never emits more triggers than
the progression has chords (whatever the fuel). -/
theorem progressionEvents_len (resolve : String → ChordInfo)
    (prog : List String) (dur : Duration) :
    ∀ (fuel i t : Nat),
    (progressionEvents resolve prog dur false (i, t) fuel).length ≤ prog.length - i := by
  intro fuel
  induction fuel with
  | zero => intro i t; simp [progressionEvents]
  | succ n ih =>
    intro i t
    by_cases hi : prog.length ≤ i
    · rw [progressionEvents_of_le resolve prog dur (n + 1) i t hi]; simp
    · have hih := ih (i + 1) (t + 1500)
      simp only [progressionEvents, playNextStep, hi, if_false, List.length_cons]
      omega

/-- Closed form of a full non-looping walk: exactly one trigger per
chord, in order, at times 0, 1500, 3000, …. -/
theorem progressionEvents_noLoop (resolve : String → ChordInfo)
    (prog : List String) (dur : Duration) (fuel : Nat) (hf : prog.length ≤ fuel) :
    progressionEvents resolve prog dur false (0, 0) fuel =
      (List.range prog.length).map (fun k =>
        TimedTrigger.mk (1500 * k) (progressionTrigger resolve prog dur k)) := by
  have harith : fuel = prog.length + (fuel - prog.length) := by omega
  rw [harith, progressionEvents_split resolve prog dur false prog.length 0 0 _ (by omega)]
  rw [progressionEvents_of_le resolve prog dur _ _ _ (by omega)]
  simp

/-- Closed form of one looping cycle plus the restart: the n triggers,
then an extra 1500 ms pause, then the first chord again at 1500·(n+1). -/
theorem progressionEvents_loop (resolve : String → ChordInfo)
    (prog : List String) (dur : Duration) (h : prog ≠ []) :
    progressionEvents resolve prog dur true (0, 0) (prog.length + 2) =
      (List.range prog.length).map (fun k =>
        TimedTrigger.mk (1500 * k) (progressionTrigger resolve prog dur k)) ++
      [TimedTrigger.mk (1500 * (prog.length + 1))
        (progressionTrigger resolve prog dur 0)] := by
  rw [progressionEvents_split resolve prog dur true prog.length 0 0 2 (by omega)]
  have hpos : ¬ prog.length ≤ 0 := by
    have := List.length_pos.mpr h
    omega
  congr 1
  · simp
  · have hev : progressionEvents resolve prog dur true
        (0 + prog.length, 0 + 1500 * prog.length) 2 =
        [TimedTrigger.mk (1500 * prog.length + 1500) (progressionTrigger resolve prog dur 0)] := by
      simp [progressionEvents, playNextStep, hpos]
    rw [hev]
    have e : 1500 * prog.length + 1500 = 1500 * (prog.length + 1) := by omega
    rw [e]

/-! Claim theorems. -/

/-- C3: when harmonics mode is enabled, the derived chord pitches carry
the same pitch classes the resolver returned, and index `i` receives
octave `4 + ⌊i/2⌋`, overriding the fixed octave-4 placement. -/
theorem C3_harmonics_octave_spread (ci : ChordInfo) :
    (handleSelectNotes ci true).map Pitch.pc = ci.notes ∧
    (handleSelectNotes ci true).map Pitch.oct =
      (List.range ci.notes.length).map (fun i => 4 + i / 2) := by
  constructor
  · apply List.ext_getElem
    · simp [handleSelectNotes, List.enum_length]
    · intro i h1 h2
      simp [handleSelectNotes, List.getElem_enum]
  · apply List.ext_getElem
    · simp [handleSelectNotes, List.enum_length]
    · intro i h1 h2
      simp [handleSelectNotes, List.getElem_enum]

/-- C5: with harmonics disabled, the derived chord notes are exactly the
resolver's pitch classes placed at octave 4 in resolver order, and with
no bass and no melody the assembled playback set is exactly that list. -/
theorem C5_fixed_octave_derivation (ci : ChordInfo) :
    handleSelectNotes ci false = ci.notes.map (fun c => Pitch.mk c 4) ∧
    buildAllNotes none (handleSelectNotes ci false) [] =
      ci.notes.map (fun c => Pitch.mk c 4) := by
  constructor
  · simp [handleSelectNotes]
  · simp [handleSelectNotes, buildAllNotes]

/-- C7: a chord symbol that resolves to zero pitches (unknown symbol)
derives an empty note list, selecting it issues no trigger instruction
(`playChord` early-returns), and the resulting state has empty notes,
no bass and empty melody, so the assembled playback set is empty. -/
theorem C7_unknown_chord_silent (resolve : String → ChordInfo) (s : State)
    (sym : String) (rand : ℚ)
    (hn : (resolve sym).notes = []) (ht : (resolve sym).tonic = none) :
    handleSelectNotes (resolve sym) s.harmonicsMode = [] ∧
    (handleSelect resolve s sym rand).2 = none ∧
    (handleSelect resolve s sym rand).1.notes = [] ∧
    (handleSelect resolve s sym rand).1.bassNote = none ∧
    (handleSelect resolve s sym rand).1.selectedMelody = [] ∧
    buildAllNotes (handleSelect resolve s sym rand).1.bassNote
      (handleSelect resolve s sym rand).1.notes
      (handleSelect resolve s sym rand).1.selectedMelody = [] := by
  have hnotes : handleSelectNotes (resolve sym) s.harmonicsMode = [] := by
    simp [handleSelectNotes, hn]
  refine ⟨hnotes, ?_, ?_, ?_, ?_, ?_⟩ <;>
    simp [handleSelect, hnotes, ht, playChord, buildAllNotes]

/-- C7 witness: selecting the unknown symbol "Hmaj9" on the sample state
is silent. -/
theorem C7_unknown_chord_silent_witness :
    (sampleResolve "Hmaj9").notes = [] ∧ (sampleResolve "Hmaj9").tonic = none ∧
    ((handleSelect sampleResolve sampleState "Hmaj9" (1/2)).2 = none ∧
     (handleSelect sampleResolve sampleState "Hmaj9" (1/2)).1.notes = []) := by
  refine ⟨by decide, by decide, ?_, ?_⟩
  · exact (C7_unknown_chord_silent sampleResolve sampleState "Hmaj9" (1/2)
      (by decide) (by decide)).2.1
  · exact (C7_unknown_chord_silent sampleResolve sampleState "Hmaj9" (1/2)
      (by decide) (by decide)).2.2.1

/-- C8: appending to the progression when no chord is selected leaves the
stored list unchanged (the whole state is unchanged). -/
theorem C8_append_requires_selection (s : State) (h : s.selectedChord = none) :
    (addToProgression s).progression = s.progression ∧ addToProgression s = s := by
  constructor <;> simp [addToProgression, h]

/-- C8 witness: appending on the baseline state (no selection) is a no-op. -/
theorem C8_append_requires_selection_witness :
    sampleState.selectedChord = none ∧
    ((addToProgression sampleState).progression = sampleState.progression ∧
     addToProgression sampleState = sampleState) :=
  ⟨by decide, C8_append_requires_selection sampleState (by decide)⟩

/-- C9: replacing the whole progression via a template selection (the
`ChordProgressionSection` `onSelect` callback in the first variant, and
the template `<select>` handler in the second variant) stores the
template's chords and clears the selected chord, the derived notes, the
bass pitch and the melody selection. -/
theorem C9_replace_all_resets_selection (s : State) (chords : List String)
    (s2 : State2) (label : String) (chords2 : List String)
    (hl : label ≠ "") (hlook : progressionTemplates.lookup label = some chords2) :
    ((chordProgressionOnSelect s chords).progression = chords ∧
     (chordProgressionOnSelect s chords).selectedChord = none ∧
     (chordProgressionOnSelect s chords).notes = [] ∧
     (chordProgressionOnSelect s chords).bassNote = none ∧
     (chordProgressionOnSelect s chords).selectedMelody = []) ∧
    ((templateSelect s2 label).progression = chords2 ∧
     (templateSelect s2 label).selectedChord = none ∧
     (templateSelect s2 label).notes = [] ∧
     (templateSelect s2 label).bassNote = none ∧
     (templateSelect s2 label).selectedMelody = []) := by
  constructor
  · simp [chordProgressionOnSelect]
  · simp [templateSelect, hl, hlook]

/-- C9 witness: picking the "ii–V–I" template on the baseline states. -/
theorem C9_replace_all_resets_selection_witness :
    "ii–V–I" ≠ "" ∧
    progressionTemplates.lookup "ii–V–I" = some ["Dm7", "G7", "Cmaj7"] ∧
    (((chordProgressionOnSelect sampleState ["Dm7", "G7", "Cmaj7"]).progression =
        ["Dm7", "G7", "Cmaj7"] ∧
      (chordProgressionOnSelect sampleState ["Dm7", "G7", "Cmaj7"]).selectedChord = none ∧
      (chordProgressionOnSelect sampleState ["Dm7", "G7", "Cmaj7"]).notes = [] ∧
      (chordProgressionOnSelect sampleState ["Dm7", "G7", "Cmaj7"]).bassNote = none ∧
      (chordProgressionOnSelect sampleState ["Dm7", "G7", "Cmaj7"]).selectedMelody = []) ∧
     ((templateSelect sampleState2 "ii–V–I").progression = ["Dm7", "G7", "Cmaj7"] ∧
      (templateSelect sampleState2 "ii–V–I").selectedChord = none ∧
      (templateSelect sampleState2 "ii–V–I").notes = [] ∧
      (templateSelect sampleState2 "ii–V–I").bassNote = none ∧
      (templateSelect sampleState2 "ii–V–I").selectedMelody = [])) :=
  ⟨by decide, by decide,
   C9_replace_all_resets_selection sampleState ["Dm7", "G7", "Cmaj7"]
     sampleState2 "ii–V–I" ["Dm7", "G7", "Cmaj7"] (by decide) (by decide)⟩

/-- C10: selecting a chord (in either `ChordSearch` variant) resets the
melody selection to empty, whatever it was before. -/
theorem C10_select_clears_melody (resolve : String → ChordInfo)
    (s : State) (s2 : State2) (chordName : String) (rand : ℚ) :
    (handleSelect resolve s chordName rand).1.selectedMelody = [] ∧
    (handleSelect2 resolve s2 chordName).selectedMelody = [] := by
  constructor
  · simp [handleSelect]
  · simp [handleSelect2]

/-- C4: the playback loudness is the Velocity Class base jittered into
`[base-2, base+2]` dB (for `Math.random()` samples in `[0,1)`); the
volume set by `playChord` and by `playProgression` is exactly the
jitter of the sample drawn at that call; each chord-loop tick draws its
own fresh sample; and the jitter is injective in the sample, so
distinct per-call samples give distinct volumes (nothing is cached). -/
theorem C4_velocity_jitter (v : Velocity) :
    (∀ rand : ℚ, 0 ≤ rand → rand < 1 →
      velocityMap v - 2 ≤ getHumanizedVelocity v rand ∧
      getHumanizedVelocity v rand ≤ velocityMap v + 2) ∧
    (∀ (s : State) (customNotes : List Pitch) (rand vol : ℚ)
        (trigs : List Trigger), s.velocity = v →
      playChord s customNotes rand = some (vol, trigs) →
      vol = getHumanizedVelocity v rand) ∧
    (∀ (resolve : String → ChordInfo) (s : State) (rand vol : ℚ) (fuel : Nat)
        (evs : List TimedTrigger), s.velocity = v →
      playProgression resolve s rand fuel = some (vol, evs) →
      vol = getHumanizedVelocity v rand) ∧
    (∀ (s : State) (rands : Nat → ℚ) (count j : Nat), j < count →
      (loopPlayChordTicks s rands count).getD j none =
        playChord s s.notes (rands j)) ∧
    (∀ r1 r2 : ℚ, getHumanizedVelocity v r1 = getHumanizedVelocity v r2 →
      r1 = r2) := by
  refine ⟨?_, ?_, ?_, ?_, ?_⟩
  · intro rand h0 h1
    unfold getHumanizedVelocity
    constructor <;> nlinarith
  · intro s customNotes rand vol trigs hv h
    unfold playChord at h
    split at h
    · exact absurd h (by simp)
    · split at h <;> simp_all
  · intro resolve s rand vol fuel evs hv h
    unfold playProgression at h
    split at h
    · exact absurd h (by simp)
    · simp_all
  · intro s rands count j hj
    unfold loopPlayChordTicks
    rw [List.getD_eq_getElem?_getD, List.getElem?_map]
    simp [List.getElem?_range hj]
  · intro r1 r2 h
    unfold getHumanizedVelocity at h
    linarith

/-- C4 witness: at Velocity Class `medium` (base −12 dB) and sample 3/4,
the jittered volume lies in `[-14, -10]`; `playChord` on a concrete
state uses exactly that jitter; tick 1 of the chord loop draws sample 1. -/
theorem C4_velocity_jitter_witness :
    ((0:ℚ) ≤ 3/4 ∧ (3/4:ℚ) < 1 ∧
     velocityMap .medium - 2 ≤ getHumanizedVelocity .medium (3/4) ∧
     getHumanizedVelocity .medium (3/4) ≤ velocityMap .medium + 2) ∧
    (playChord { sampleState with notes := [Pitch.mk "C" 4] } [Pitch.mk "C" 4] (3/4) =
      some (-11, [Trigger.mk [Pitch.mk "C" 4] "2n" 0]) ∧
     (-11 : ℚ) = getHumanizedVelocity .medium (3/4)) ∧
    ((1:Nat) < 2 ∧
     (loopPlayChordTicks { sampleState with notes := [Pitch.mk "C" 4] }
        (fun j => (j : ℚ) / 4) 2).getD 1 none =
       playChord { sampleState with notes := [Pitch.mk "C" 4] } [Pitch.mk "C" 4] (1/4)) := by
  refine ⟨⟨by norm_num, by norm_num, ?_⟩, ⟨?_, ?_⟩, by decide, ?_⟩
  · exact (C4_velocity_jitter .medium).1 (3/4) (by norm_num) (by norm_num)
  · simp [playChord, sampleState, buildAllNotes, timeMap]
    norm_num [getHumanizedVelocity, velocityMap]
  · norm_num [getHumanizedVelocity, velocityMap]
  · have h := (C4_velocity_jitter .medium).2.2.2.1
      { sampleState with notes := [Pitch.mk "C" 4] } (fun j => (j : ℚ) / 4) 2 1
      (by decide)
    simpa using h

/-- C6: a non-empty playback set played in arpeggiated style issues
exactly one trigger instruction per pitch in list order, the i-th at
onset offset `i · k` (k = 0.3 s in `playChord`, 0.25 s in the `Piano`
playback effect), every instruction carrying the Duration Class's
note-length token. -/
theorem C6_arpeggio_triggers (s : State) (customNotes : List Pitch) (rand : ℚ)
    (hstyle : s.playStyle = .arpeggio) (hm : s.isMuted = false)
    (hne : customNotes ≠ []) :
    (playChord s customNotes rand =
      some (getHumanizedVelocity s.velocity rand,
        (buildAllNotes s.bassNote customNotes s.selectedMelody).enum.map
          (fun p => Trigger.mk [p.2] (timeMap s.duration) ((p.1 : ℚ) * (3/10)))) ∧
     ((buildAllNotes s.bassNote customNotes s.selectedMelody).enum.map
        (fun p => Trigger.mk [p.2] (timeMap s.duration) ((p.1 : ℚ) * (3/10)))).length =
       (buildAllNotes s.bassNote customNotes s.selectedMelody).length ∧
     ∀ i (h1 : i < ((buildAllNotes s.bassNote customNotes s.selectedMelody).enum.map
          (fun p => Trigger.mk [p.2] (timeMap s.duration) ((p.1 : ℚ) * (3/10)))).length)
        (h2 : i < (buildAllNotes s.bassNote customNotes s.selectedMelody).length),
       ((buildAllNotes s.bassNote customNotes s.selectedMelody).enum.map
          (fun p => Trigger.mk [p.2] (timeMap s.duration) ((p.1 : ℚ) * (3/10)))).get ⟨i, h1⟩ =
         Trigger.mk [(buildAllNotes s.bassNote customNotes s.selectedMelody).get ⟨i, h2⟩]
           (timeMap s.duration) ((i : ℚ) * (3/10))) ∧
    (∀ (dur : Duration) (combined : List Pitch), combined ≠ [] →
      (pianoPlaybackEffect false .arpeggio dur combined).length = combined.length ∧
      ∀ i (h1 : i < (pianoPlaybackEffect false .arpeggio dur combined).length)
          (h2 : i < combined.length),
        (pianoPlaybackEffect false .arpeggio dur combined).get ⟨i, h1⟩ =
          Trigger.mk [combined.get ⟨i, h2⟩] (timeMap dur) ((i : ℚ) * (1/4))) := by
  refine ⟨⟨?_, ?_, ?_⟩, ?_⟩
  · simp [playChord, hstyle, hm, hne]
  · simp [List.enum_length]
  · intro i h1 h2
    simp only [List.get_eq_getElem, List.getElem_map]
    rw [List.getElem_enum]
  · intro dur combined hc
    constructor
    · simp [pianoPlaybackEffect, hc, List.enum_length]
    · intro i h1 h2
      simp only [pianoPlaybackEffect, hc, List.get_eq_getElem] at h1 ⊢
      simp only [Bool.false_eq_true, false_or, List.isEmpty_eq_true, hc,
        if_false, List.getElem_map] at h1 ⊢
      rw [List.getElem_enum]

/-- C6 witness: arpeggiating [C4, E4, G4] at duration `medium` from a
state with no bass and no melody gives offsets 0, 0.3, 0.6 s, each
trigger tagged "2n". -/
theorem C6_arpeggio_triggers_witness :
    ({ sampleState with playStyle := .arpeggio } : State).playStyle = .arpeggio ∧
    ({ sampleState with playStyle := .arpeggio } : State).isMuted = false ∧
    [Pitch.mk "C" 4, Pitch.mk "E" 4, Pitch.mk "G" 4] ≠ ([] : List Pitch) ∧
    playChord { sampleState with playStyle := .arpeggio }
        [Pitch.mk "C" 4, Pitch.mk "E" 4, Pitch.mk "G" 4] (1/2) =
      some (-12,
        [Trigger.mk [Pitch.mk "C" 4] "2n" 0,
         Trigger.mk [Pitch.mk "E" 4] "2n" (3/10),
         Trigger.mk [Pitch.mk "G" 4] "2n" (3/5)]) := by
  refine ⟨rfl, rfl, by decide, ?_⟩
  rw [(C6_arpeggio_triggers { sampleState with playStyle := .arpeggio }
      [Pitch.mk "C" 4, Pitch.mk "E" 4, Pitch.mk "G" 4] (1/2)
      rfl rfl (by decide)).1.1]
  simp [sampleState, buildAllNotes, timeMap, List.enum, List.enumFrom]
  norm_num [getHumanizedVelocity, velocityMap]

/-- C1 (code deviation): with the muted flag set, single-chord play,
melody preview, the Piano playback effect and an ad-hoc key press each
issue zero triggers, but `playProgression` never consults the muted
flag: on a muted state with progression ["Cmaj7"] it still issues its
simultaneous trigger. -/
theorem C1_muted_progression_still_triggers :
    playProgression sampleResolve
        { sampleState with isMuted := true, progression := ["Cmaj7"] } (1/2) 3 =
      some (getHumanizedVelocity .medium (1/2),
        [TimedTrigger.mk 0 (Trigger.mk [Pitch.mk "C" 4, Pitch.mk "E" 4,
          Pitch.mk "G" 4, Pitch.mk "B" 4] "2n" 0)]) ∧
    playChord { sampleState with isMuted := true, progression := ["Cmaj7"] }
      [Pitch.mk "C" 4] (1/2) = none ∧
    playMelodyPreview
      { sampleState with
        isMuted := true
        selectedMelody := [Pitch.mk "C" 5] } = [] ∧
    pianoPlaybackEffect true .chord .medium [Pitch.mk "C" 4] = [] ∧
    handleKeyClick true (Pitch.mk "C" 4) = [] := by
  refine ⟨?_, by decide, by decide, by decide, by decide⟩
  simp [playProgression, sampleState, progressionEvents, playNextStep,
    progressionTrigger, progressionChordNotes, sampleResolve, timeMap]

/-- C2: for a non-empty progression of length n, progression playback
triggers chord k (simultaneously, at octave 4, with the duration's
note-length token) at time 1500·k ms, in order; with the eight-bar-loop
flag off it issues exactly n triggers and never an (n+1)-th, whatever
the fuel; with the flag on, after the n-th trigger it waits one extra
1500 ms pause and restarts at index 0 at time 1500·(n+1) with the same
trigger content as the first. -/
theorem C2_progression_walkthrough (resolve : String → ChordInfo) (s : State)
    (rand : ℚ) (h : s.progression ≠ []) :
    (s.eightBarLoop = false →
      (∀ fuel, s.progression.length ≤ fuel →
        playProgression resolve s rand fuel =
          some (getHumanizedVelocity s.velocity rand,
            (List.range s.progression.length).map (fun k =>
              TimedTrigger.mk (1500 * k)
                (progressionTrigger resolve s.progression s.duration k)))) ∧
      ∀ fuel,
        (progressionEvents resolve s.progression s.duration false (0, 0) fuel).length ≤
          s.progression.length) ∧
    (s.eightBarLoop = true →
      playProgression resolve s rand (s.progression.length + 2) =
        some (getHumanizedVelocity s.velocity rand,
          (List.range s.progression.length).map (fun k =>
            TimedTrigger.mk (1500 * k)
              (progressionTrigger resolve s.progression s.duration k)) ++
          [TimedTrigger.mk (1500 * (s.progression.length + 1))
            (progressionTrigger resolve s.progression s.duration 0)])) := by
  have hne : s.progression.isEmpty = false := by
    simpa [List.isEmpty_iff] using h
  refine ⟨fun heb => ⟨fun fuel hf => ?_, fun fuel => ?_⟩, fun heb => ?_⟩
  · simp only [playProgression, hne, Bool.false_eq_true, if_false, heb,
      Option.some.injEq, Prod.mk.injEq, true_and]
    exact progressionEvents_noLoop resolve s.progression s.duration fuel hf
  · simpa using progressionEvents_len resolve s.progression s.duration fuel 0 0
  · simp only [playProgression, hne, Bool.false_eq_true, if_false, heb,
      Option.some.injEq, Prod.mk.injEq, true_and]
    exact progressionEvents_loop resolve s.progression s.duration h

/-- C2 witness: progression ["Cmaj7","G7","Fmaj7"]. Without the
eight-bar loop: exactly 3 triggers at 0, 1500, 3000 ms. With it: those
3, then the Cmaj7 trigger again at 6000 ms (= 1500·4, one extra 1500 ms
pause after the 4500 ms end-of-sequence check). -/
theorem C2_progression_walkthrough_witness :
    (["Cmaj7", "G7", "Fmaj7"] : List String) ≠ [] ∧
    playProgression sampleResolve
        { sampleState with progression := ["Cmaj7", "G7", "Fmaj7"] } (1/2) 3 =
      some (getHumanizedVelocity .medium (1/2),
        [TimedTrigger.mk 0 (Trigger.mk [Pitch.mk "C" 4, Pitch.mk "E" 4,
           Pitch.mk "G" 4, Pitch.mk "B" 4] "2n" 0),
         TimedTrigger.mk 1500 (Trigger.mk [Pitch.mk "G" 4, Pitch.mk "B" 4,
           Pitch.mk "D" 4, Pitch.mk "F" 4] "2n" 0),
         TimedTrigger.mk 3000 (Trigger.mk [Pitch.mk "F" 4, Pitch.mk "A" 4,
           Pitch.mk "C" 4, Pitch.mk "E" 4] "2n" 0)]) ∧
    playProgression sampleResolve
        { sampleState with
          progression := ["Cmaj7", "G7", "Fmaj7"]
          eightBarLoop := true } (1/2) 5 =
      some (getHumanizedVelocity .medium (1/2),
        [TimedTrigger.mk 0 (Trigger.mk [Pitch.mk "C" 4, Pitch.mk "E" 4,
           Pitch.mk "G" 4, Pitch.mk "B" 4] "2n" 0),
         TimedTrigger.mk 1500 (Trigger.mk [Pitch.mk "G" 4, Pitch.mk "B" 4,
           Pitch.mk "D" 4, Pitch.mk "F" 4] "2n" 0),
         TimedTrigger.mk 3000 (Trigger.mk [Pitch.mk "F" 4, Pitch.mk "A" 4,
           Pitch.mk "C" 4, Pitch.mk "E" 4] "2n" 0),
         TimedTrigger.mk 6000 (Trigger.mk [Pitch.mk "C" 4, Pitch.mk "E" 4,
           Pitch.mk "G" 4, Pitch.mk "B" 4] "2n" 0)]) := by
  refine ⟨by decide, ?_, ?_⟩
  · have hc := ((C2_progression_walkthrough sampleResolve
      { sampleState with progression := ["Cmaj7", "G7", "Fmaj7"] } (1/2)
      (by decide)).1 rfl).1 3 (by decide)
    rw [hc]
    simp [List.range_succ, progressionTrigger, progressionChordNotes,
      sampleResolve, timeMap, sampleState]
  · have hc := (C2_progression_walkthrough sampleResolve
      { sampleState with
        progression := ["Cmaj7", "G7", "Fmaj7"]
        eightBarLoop := true } (1/2) (by decide)).2 rfl
    rw [show (5 : Nat) =
      ({ sampleState with
         progression := ["Cmaj7", "G7", "Fmaj7"]
         eightBarLoop := true } : State).progression.length + 2 from rfl]
    rw [hc]
    simp [List.range_succ, progressionTrigger, progressionChordNotes,
      sampleResolve, timeMap, sampleState]

end ChordApp
